import Mathlib

/-
  Shallow embedding of the CI/CD Pipeline Health Dashboard backend
  (FastAPI service in backend/main.py, schemas.py, ws.py, and the
  provider collectors) together with proofs about its ingestion
  normalization, metrics aggregation, broadcast and alerting logic.

  Timestamps are modelled as integers (epoch seconds); float durations
  and rates are modelled as rationals.
-/

namespace CICD

/-- Canonical ingestion payload, mirroring `IngestRequest` in
`backend/schemas.py` (all five of pipeline, repo, branch, status,
started_at are required there; the rest are optional). -/
structure IngestRequest where
  pipeline : String
  repo : String
  branch : String
  status : String
  started_at : Int
  completed_at : Option Int
  duration_seconds : Option ℚ
  url : Option String
  logs : Option String
deriving DecidableEq

/-- Persisted build record, mirroring the `Build` model in
`backend/models.py` (store-assigned id and created_at omitted). -/
structure Build where
  provider : String
  pipeline : String
  repo : String
  branch : String
  status : String
  started_at : Int
  completed_at : Option Int
  duration_seconds : Option ℚ
  url : Option String
  logs : Option String
deriving DecidableEq

/-- A raw (pre-validation) ingestion payload in which every field may be
absent, as seen by pydantic validation of `IngestRequest`. -/
structure RawIngest where
  pipeline : Option String
  repo : Option String
  branch : Option String
  status : Option String
  started_at : Option Int
  completed_at : Option Int
  duration_seconds : Option ℚ
  url : Option String
  logs : Option String
deriving DecidableEq

/-- The pydantic pattern on `IngestRequest.status`:
`^(success|failure|cancelled|in_progress)$`. -/
def statusOk (s : String) : Bool :=
  s == "success" || s == "failure" || s == "cancelled" || s == "in_progress"

/-- A required pydantic field: absent means a validation error. -/
def reqField (field : String) (v : Option α) : Except String α :=
  match v with
  | none => Except.error (field ++ ": field required")
  | some x => Except.ok x

/-- Pydantic validation of `IngestRequest` (`backend/schemas.py`):
`pipeline`, `repo`, `branch`, `status`, `started_at` are required,
`status` must match the pattern; the remaining fields are optional. -/
def validateIngest (raw : RawIngest) : Except String IngestRequest := do
  let pl ← reqField "pipeline" raw.pipeline
  let rp ← reqField "repo" raw.repo
  let br ← reqField "branch" raw.branch
  let st ← reqField "status" raw.status
  let sa ← reqField "started_at" raw.started_at
  if statusOk st then
    Except.ok { pipeline := pl, repo := rp, branch := br, status := st,
                started_at := sa, completed_at := raw.completed_at,
                duration_seconds := raw.duration_seconds,
                url := raw.url, logs := raw.logs }
  else
    Except.error "status: string should match pattern"

/-- Whether an `Except` result is a success. -/
def isOkE (e : Except String IngestRequest) : Bool :=
  match e with
  | Except.ok _ => true
  | Except.error _ => false

/-- The `workflow_run` object of a GitHub/Jenkins webhook payload
(fields used by `webhook_github` / `webhook_jenkins` in
`backend/main.py`; timestamps as epoch seconds). -/
structure WorkflowRun where
  name : Option String
  conclusion : Option String
  head_branch : Option String
  created_at : Option Int
  updated_at : Option Int
  html_url : Option String
deriving DecidableEq

/-- Status computed by `webhook_github` (backend/main.py line 220):
`"success" if workflow_run.get("conclusion") == "success" else "failure"`. -/
def webhookStatus (conclusion : Option String) : String :=
  if conclusion = some "success" then "success" else "failure"

/-- The `IngestRequest` constructed by `webhook_github`
(backend/main.py lines 216-225); `now` models
`datetime.now(timezone.utc)` used when a timestamp is absent. -/
def webhookGithubIngest (wr : WorkflowRun) (repoFullName : Option String)
    (now : Int) : IngestRequest :=
  { pipeline := wr.name.getD "unknown"
    repo := repoFullName.getD "unknown"
    branch := wr.head_branch.getD "main"
    status := webhookStatus wr.conclusion
    started_at := wr.created_at.getD now
    completed_at := some (wr.updated_at.getD now)
    duration_seconds := none
    url := wr.html_url
    logs := some "GitHub Actions run" }

/-- `GitHubCollector._map_conclusion_to_status`
(backend/collectors/github_collector.py lines 98-107). -/
def mapConclusionToStatus (conclusion : Option String) : String :=
  if conclusion = some "success" then "success"
  else if conclusion = some "failure" then "failure"
  else if conclusion = some "cancelled" then "cancelled"
  else "in_progress"

/-- Duration computation in `_persist` (backend/main.py lines 42-45):
an explicit duration is trusted; otherwise `completed_at - started_at`
when `completed_at` is present; otherwise null. No clamping occurs. -/
def persistDuration (data : IngestRequest) : Option ℚ :=
  match data.duration_seconds with
  | some d => some d
  | none =>
    match data.completed_at with
    | some c => some ((c - data.started_at : Int) : ℚ)
    | none => none

/-- The `Build` row written by `_persist` (backend/main.py lines 42-61). -/
def mkBuild (provider : String) (data : IngestRequest) : Build :=
  { provider := provider
    pipeline := data.pipeline
    repo := data.repo
    branch := data.branch
    status := data.status
    started_at := data.started_at
    completed_at := data.completed_at
    duration_seconds := persistDuration data
    url := data.url
    logs := data.logs }

/-- Python `str.endswith` for a one-character suffix. -/
def endsWithChar (s : String) (c : Char) : Bool :=
  match s.data.getLast? with
  | some d => d == c
  | none => false

/-- Python slicing `s[:-1]`: drop the last character. -/
def dropLast1 (s : String) : String :=
  String.mk s.data.dropLast

/-- Decimal digit run to a number; `none` on an empty or non-digit run. -/
def digitsToNat (l : List Char) : Option Nat :=
  if l.isEmpty then none
  else if l.all (fun c => c.isDigit) then
    some (l.foldl (fun acc c => acc * 10 + (c.toNat - 48)) 0)
  else none

/-- Python `int(s)` on a decimal literal with an optional sign;
`none` models the `ValueError`. -/
def pyInt (s : String) : Option Int :=
  match s.data with
  | '-' :: rest => (digitsToNat rest).map (fun n => -(n : Int))
  | '+' :: rest => (digitsToNat rest).map (fun n => (n : Int))
  | ds => (digitsToNat ds).map (fun n => (n : Int))

/-- Window parsing of `metrics_summary` (backend/main.py lines 115-123):
result is the window length in seconds; `none` models the uncaught
`ValueError` of `int()` on a malformed magnitude. A window ending in
neither "h" nor "d" silently keeps the 7-day default. -/
def parseWindow (w : String) : Option Int :=
  if endsWithChar w 'h' then (pyInt (dropLast1 w)).map (fun n => n * 3600)
  else if endsWithChar w 'd' then (pyInt (dropLast1 w)).map (fun n => n * 86400)
  else some (7 * 86400)

/-- The default of the `window` query parameter of `/metrics/summary`. -/
def defaultWindow : String := "7d"

/-- Windowed selection of `metrics_summary` (backend/main.py line 125):
builds with `started_at >= since`. -/
def selRows (since : Int) (rows : List Build) : List Build :=
  rows.filter (fun r => since ≤ r.started_at)

/-- `success_rate` of `metrics_summary` (backend/main.py line 142):
`succ / total * 100.0` with a `0.0` guard for an empty selection. -/
def successRate (sel : List Build) : ℚ :=
  if sel.length = 0 then 0
  else (sel.countP (fun r => r.status == "success") : ℚ) / (sel.length : ℚ) * 100

/-- `failure_rate` of `metrics_summary` (backend/main.py line 143). -/
def failureRate (sel : List Build) : ℚ :=
  if sel.length = 0 then 0
  else (sel.countP (fun r => r.status == "failure") : ℚ) / (sel.length : ℚ) * 100

/-- `avg_build_time` of `metrics_summary` (backend/main.py lines 131-132):
mean of the non-null durations, or null when there are none. -/
def avgBuildTime (sel : List Build) : Option ℚ :=
  let durations := sel.filterMap (fun r => r.duration_seconds)
  if durations.length = 0 then none
  else some (durations.sum / (durations.length : ℚ))

/-- One update of the `last_by_pipeline` dict (backend/main.py lines
137-138): replace the stored build when the key is new or the new
build started strictly later. -/
def pickStep (acc : Option Build) (r : Build) : Option Build :=
  match acc with
  | none => some r
  | some prev => if prev.started_at < r.started_at then some r else some prev

/-- The dict written by one iteration of the `last_by_pipeline` loop. -/
def updater (d : String → Option Build) (r : Build) : String → Option Build :=
  fun k => if k = r.pipeline then pickStep (d r.pipeline) r else d k

/-- The `last_by_pipeline` dict of `metrics_summary` (backend/main.py
lines 134-138), as a lookup function. -/
def lastByPipeline (rows : List Build) : String → Option Build :=
  rows.foldl updater (fun _ => none)

/-- The response model `SummaryOut` (backend/schemas.py lines 34-39),
with the per-pipeline map as a lookup function. -/
structure SummaryOut where
  window : String
  success_rate : ℚ
  failure_rate : ℚ
  avg_build_time : Option ℚ
  last_status_by_pipeline : String → Option String

/-- The whole `/metrics/summary` endpoint (backend/main.py lines
115-147), given the current time and the stored builds; `none` models
the uncaught `int()` error on a malformed window magnitude. -/
def metricsSummary (window : String) (now : Int) (rows : List Build) :
    Option SummaryOut :=
  (parseWindow window).map (fun delta =>
    let sel := selRows (now - delta) rows
    { window := window
      success_rate := successRate sel
      failure_rate := failureRate sel
      avg_build_time := avgBuildTime sel
      last_status_by_pipeline := fun k => (lastByPipeline sel k).map Build.status })

/-
  ConnectionManager (backend/ws.py). Connections are modelled by
  numeric identities; a failing send is modelled by a predicate on
  connections (a failure property of the connection for the duration
  of one broadcast).
-/

/-- Python's `list.remove`: drop the first occurrence. -/
def pyRemove : List Nat → Nat → List Nat
  | [], _ => []
  | a :: as, x => if a = x then as else a :: pyRemove as x

/-- `ConnectionManager.disconnect` (backend/ws.py lines 12-14):
remove the connection if present, else no-op. -/
def disconnect (active : List Nat) (ws : Nat) : List Nat :=
  if ws ∈ active then pyRemove active ws else active

/-- `ConnectionManager.broadcast` (backend/ws.py lines 16-24): attempt
a send to every active connection, catching per-connection failures,
then disconnect every connection that failed. Returns the list of
connections that received the message and the new active list. -/
def broadcastStep (fails : Nat → Bool) (active : List Nat) :
    List Nat × List Nat :=
  let delivered := active.filter (fun ws => !(fails ws))
  let toDrop := active.filter (fun ws => fails ws)
  (delivered, toDrop.foldl disconnect active)

/-- A registry operation: `connect` (after transport accept) or
`disconnect`. -/
inductive RegOp where
  | reg : Nat → RegOp
  | unreg : Nat → RegOp
deriving DecidableEq

/-- Effect of one registry operation on the active list:
`connect` appends unconditionally (backend/ws.py lines 8-10),
`disconnect` removes the first occurrence if present. -/
def applyOp (active : List Nat) : RegOp → List Nat
  | RegOp.reg c => active ++ [c]
  | RegOp.unreg c => disconnect active c

/-- The active list produced by a sequence of registry operations
starting from the empty registry. -/
def applyOps (ops : List RegOp) : List Nat :=
  ops.foldl applyOp []

/-
  Ingestion endpoint (backend/main.py lines 63-79): persist, then, iff
  the persisted status is "failure", call the alert collaborator with
  (pipeline, repo, url or "", logs or ""), then broadcast. The
  endpoint's observable side effects are modelled as an ordered trace.
-/

/-- The alert predicate of `ingest_github` (backend/main.py line 66):
true iff the persisted status is "failure". -/
def shouldAlert (b : Build) : Bool :=
  b.status == "failure"

/-- One observable side effect of an ingestion request. -/
inductive Action where
  | persistA : Build → Action
  | alertA : String → String → String → String → Action
  | broadcastA : String → String → String → String → Action
deriving DecidableEq

/-- Whether an action is an alert-collaborator invocation. -/
def isAlert : Action → Bool
  | Action.alertA _ _ _ _ => true
  | _ => false

/-- Ordered side-effect trace of `ingest_github` (backend/main.py lines
63-79): persist first, then the alert call exactly when the persisted
status is "failure", then the broadcast. -/
def ingestTrace (provider : String) (payload : IngestRequest) : List Action :=
  let b := mkBuild provider payload
  Action.persistA b ::
    ((if shouldAlert b then
        [Action.alertA b.pipeline b.repo (b.url.getD "") (b.logs.getD "")]
      else []) ++
     [Action.broadcastA b.pipeline b.repo b.status b.provider])

/-
  Concrete inputs used by counterexamples and witnesses.
-/

/-- A raw payload whose `pipeline` is absent while `status` and
`started_at` are present and valid. -/
def rawNoPipeline : RawIngest :=
  { pipeline := none, repo := some "org/repo", branch := some "main",
    status := some "success", started_at := some 0, completed_at := none,
    duration_seconds := none, url := none, logs := none }

/-- A webhook `workflow_run` with every field absent. -/
def wrEmpty : WorkflowRun :=
  { name := none, conclusion := none, head_branch := none,
    created_at := none, updated_at := none, html_url := none }

/-- A valid payload whose `completed_at` precedes its `started_at` and
whose explicit duration is absent. -/
def reqNegDelta : IngestRequest :=
  { pipeline := "p", repo := "org/repo", branch := "main",
    status := "success", started_at := 100, completed_at := some 40,
    duration_seconds := none, url := none, logs := none }

/-- A valid payload with `started_at = 0`, `completed_at = 120` and no
explicit duration. -/
def reqPosDelta : IngestRequest :=
  { pipeline := "p", repo := "org/repo", branch := "main",
    status := "success", started_at := 0, completed_at := some 120,
    duration_seconds := none, url := none, logs := none }

/-- A build of pipeline "A" started at time 0 with status success. -/
def eA1 : Build :=
  { provider := "github", pipeline := "A", repo := "org/repo",
    branch := "main", status := "success", started_at := 0,
    completed_at := none, duration_seconds := none, url := none,
    logs := none }

/-- A build of pipeline "A" started one hour later with status failure. -/
def eA2 : Build :=
  { provider := "github", pipeline := "A", repo := "org/repo",
    branch := "main", status := "failure", started_at := 3600,
    completed_at := none, duration_seconds := some 10, url := none,
    logs := none }

/-- Two events of the same pipeline, one hour apart. -/
def rowsA : List Build := [eA1, eA2]

/-- The summary returned for an empty event store. -/
def emptySummary : SummaryOut :=
  { window := "7d", success_rate := 0, failure_rate := 0,
    avg_build_time := none, last_status_by_pipeline := fun _ => none }

/-- A valid payload with status `failure`. -/
def reqFail : IngestRequest :=
  { pipeline := "p", repo := "org/repo", branch := "main",
    status := "failure", started_at := 0, completed_at := none,
    duration_seconds := none, url := none, logs := some "boom" }

/-- The summary computed at time 3600 over `rowsA` with the default
window. -/
def summaryA : SummaryOut :=
  { window := "7d"
    success_rate := successRate (selRows (3600 - 7 * 86400) rowsA)
    failure_rate := failureRate (selRows (3600 - 7 * 86400) rowsA)
    avg_build_time := avgBuildTime (selRows (3600 - 7 * 86400) rowsA)
    last_status_by_pipeline :=
      fun k => (lastByPipeline (selRows (3600 - 7 * 86400) rowsA) k).map Build.status }

/-
  Claim C1.
-/

/-- Claim C1, counterexample: a payload in which only `pipeline` is
absent (with `status` and `started_at` present and valid) is rejected
by `IngestRequest` validation with a missing-field error — the
ingestion does not succeed with an `"unknown"` substitute. -/
theorem c1_counterexample :
    validateIngest rawNoPipeline = Except.error "pipeline: field required" ∧
    rawNoPipeline.status = some "success" ∧
    rawNoPipeline.started_at = some 0 :=
  ⟨rfl, rfl, rfl⟩

/-- Claim C1, amended: in the ingestion schema every one of `pipeline`,
`repo`, `branch`, `status`, `started_at` is required, and the absence
of any one of them makes validation fail; the `"unknown"` substitution
for `pipeline`/`repo` (and `"main"` for `branch`) is applied only by
the webhook normalization before the schema object is built. -/
theorem c1_required_fields (raw : RawIngest) (wr : WorkflowRun)
    (rname : Option String) (now : Int) :
    ((raw.pipeline = none ∨ raw.repo = none ∨ raw.branch = none ∨
        raw.status = none ∨ raw.started_at = none) →
      isOkE (validateIngest raw) = false) ∧
    (wr.name = none → (webhookGithubIngest wr rname now).pipeline = "unknown") ∧
    (rname = none → (webhookGithubIngest wr rname now).repo = "unknown") ∧
    (wr.head_branch = none → (webhookGithubIngest wr rname now).branch = "main") := by
  refine ⟨?_, ?_, ?_, ?_⟩
  · intro h
    obtain ⟨p, r, br, st, sa, ca, ds, u, lg⟩ := raw
    cases p <;> cases r <;> cases br <;> cases st <;> cases sa <;>
      simp_all [validateIngest, reqField, isOkE, Except.bind, Bind.bind]
  · intro h
    simp [webhookGithubIngest, h]
  · intro h
    subst h
    rfl
  · intro h
    simp [webhookGithubIngest, h]

/-- Claim C1, witness: the amended theorem at the concrete payload
missing only `pipeline` and the empty webhook run. -/
theorem c1_witness :
    isOkE (validateIngest rawNoPipeline) = false ∧
    (webhookGithubIngest wrEmpty none 0).pipeline = "unknown" ∧
    (webhookGithubIngest wrEmpty none 0).repo = "unknown" ∧
    (webhookGithubIngest wrEmpty none 0).branch = "main" :=
  ⟨(c1_required_fields rawNoPipeline wrEmpty none 0).1 (Or.inl rfl),
   (c1_required_fields rawNoPipeline wrEmpty none 0).2.1 rfl,
   (c1_required_fields rawNoPipeline wrEmpty none 0).2.2.1 rfl,
   (c1_required_fields rawNoPipeline wrEmpty none 0).2.2.2 rfl⟩

/-
  Claim C2.
-/

/-- Claim C2, counterexample: the webhook handler normalizes the
unrecognized conclusion `"timed_out"` to `"failure"`, not to
`"in_progress"`. -/
theorem c2_counterexample :
    webhookStatus (some "timed_out") = "failure" ∧
    webhookStatus (some "timed_out") ≠ "in_progress" := by
  refine ⟨rfl, ?_⟩
  decide

/-- Claim C2, amended: the polling collector's mapping sends every
conclusion outside {success, failure, cancelled} to `in_progress`,
but the webhook handlers send every conclusion other than `success` —
recognized terminal codes and unrecognized codes alike — to `failure`. -/
theorem c2_status_mapping (c : Option String) :
    (c ≠ some "success" → c ≠ some "failure" → c ≠ some "cancelled" →
      mapConclusionToStatus c = "in_progress") ∧
    (c ≠ some "success" → webhookStatus c = "failure") := by
  constructor
  · intro h1 h2 h3
    simp [mapConclusionToStatus, h1, h2, h3]
  · intro h1
    simp [webhookStatus, h1]

/-- Claim C2, witness: the amended theorem at an absent conclusion. -/
theorem c2_witness :
    mapConclusionToStatus none = "in_progress" ∧
    webhookStatus none = "failure" :=
  ⟨(c2_status_mapping none).1 (by decide) (by decide) (by decide),
   (c2_status_mapping none).2 (by decide)⟩

/-
  Claim C3.
-/

/-- Claim C3, counterexample: `_persist` stores the negative delta
`-60` for a payload whose `completed_at` precedes `started_at`; the
negative result is not clamped to null. -/
theorem c3_counterexample :
    persistDuration reqNegDelta = some (-60) ∧
    ¬ persistDuration reqNegDelta = none ∧
    (-60 : ℚ) < 0 := by
  refine ⟨by decide, by decide, by decide⟩

/-- Claim C3, amended: for every valid payload with both timestamps but
no explicit duration, the persisted `duration_seconds` equals
`completed_at - started_at` in seconds — including negative deltas,
which are stored as-is rather than clamped to null. -/
theorem c3_duration_derivation (d : IngestRequest) (c : Int)
    (h1 : d.duration_seconds = none) (h2 : d.completed_at = some c) :
    persistDuration d = some ((c - d.started_at : Int) : ℚ) ∧
    (mkBuild "github" d).duration_seconds = some ((c - d.started_at : Int) : ℚ) := by
  have h : persistDuration d = some ((c - d.started_at : Int) : ℚ) := by
    simp [persistDuration, h1, h2]
  exact ⟨h, by simp [mkBuild, h]⟩

/-- Claim C3, witness: the amended theorem at the concrete payload with
`started_at = 0`, `completed_at = 120`. -/
theorem c3_witness :
    persistDuration reqPosDelta = some 120 ∧
    (mkBuild "github" reqPosDelta).duration_seconds = some 120 := by
  have h := c3_duration_derivation reqPosDelta 120 rfl rfl
  simpa [reqPosDelta] using h

/-
  Claim C4.
-/

/-- Claim C4, counterexample: the malformed window string `"abc"` is
not rejected — `metrics_summary` silently uses the 7-day default
cutoff for it. -/
theorem c4_counterexample :
    parseWindow "abc" = some (7 * 86400) ∧
    parseWindow "abc" ≠ none := by
  refine ⟨by decide, by decide⟩

/-- Claim C4, amended: `"<n>h"` uses an n-hour cutoff and `"<n>d"` an
n-day cutoff, an omitted window parameter uses the 7-day default
`"7d"`, and a window whose magnitude fails to parse as an integer is
an error; but a window string ending in neither `h` nor `d` silently
falls back to the 7-day default instead of being rejected. -/
theorem c4_window_parsing (w : String) (n : Int) :
    (endsWithChar w 'h' = true → pyInt (dropLast1 w) = some n →
      parseWindow w = some (n * 3600)) ∧
    (endsWithChar w 'h' = false → endsWithChar w 'd' = true →
      pyInt (dropLast1 w) = some n → parseWindow w = some (n * 86400)) ∧
    (endsWithChar w 'h' = false → endsWithChar w 'd' = false →
      parseWindow w = some (7 * 86400)) ∧
    (endsWithChar w 'h' = true → pyInt (dropLast1 w) = none →
      parseWindow w = none) ∧
    parseWindow defaultWindow = some (7 * 86400) := by
  refine ⟨?_, ?_, ?_, ?_, by decide⟩
  · intro h1 h2
    simp [parseWindow, h1, h2]
  · intro h1 h2 h3
    simp [parseWindow, h1, h2, h3]
  · intro h1 h2
    simp [parseWindow, h1, h2]
  · intro h1 h2
    simp [parseWindow, h1, h2]

/-- Claim C4, witness: the amended theorem at the window `"25h"`. -/
theorem c4_witness :
    parseWindow "25h" = some (25 * 3600) ∧
    parseWindow defaultWindow = some (7 * 86400) :=
  ⟨(c4_window_parsing "25h" 25).1 (by decide) (by decide),
   (c4_window_parsing "25h" 25).2.2.2.2⟩

/-
  Claim C5.
-/

/-- Per-key view of the `last_by_pipeline` loop: the dict entry for `p`
is the fold of `pickStep` over the builds of pipeline `p`, in list
order. -/
lemma foldl_updater_eq (rows : List Build) :
    ∀ (d : String → Option Build) (p : String),
      (rows.foldl updater d) p =
        (rows.filter (fun r => r.pipeline == p)).foldl pickStep (d p) := by
  induction rows with
  | nil => intro d p; rfl
  | cons r rs ih =>
    intro d p
    by_cases h : r.pipeline = p
    · have hb : (r.pipeline == p) = true := by simp [h]
      simp only [List.foldl_cons, List.filter_cons, hb, if_pos]
      rw [ih]
      have : updater d r p = pickStep (d p) r := by simp [updater, h]
      rw [this]
    · have hb : (r.pipeline == p) = false := by simp [h]
      simp only [List.foldl_cons, List.filter_cons, hb, if_neg, Bool.false_eq_true,
        not_false_iff]
      rw [ih]
      have h2 : ¬(p = r.pipeline) := fun hh => h hh.symm
      have : updater d r p = d p := by simp [updater, h2]
      rw [this]

/-- Fold characterization with a seeded accumulator: the result `c`
either is the seed (and nothing in the list started later) or splits
the list so that everything before `c` started strictly earlier and
everything after started no later. -/
lemma foldl_pickStep_char (l : List Build) :
    ∀ b : Build, ∃ c, l.foldl pickStep (some b) = some c ∧
      ((c = b ∧ ∀ r ∈ l, r.started_at ≤ b.started_at) ∨
       (b.started_at < c.started_at ∧ ∃ l1 l2, l = l1 ++ c :: l2 ∧
         (∀ r ∈ l1, r.started_at < c.started_at) ∧
         (∀ r ∈ l2, r.started_at ≤ c.started_at))) := by
  induction l with
  | nil => exact fun b => ⟨b, rfl, Or.inl ⟨rfl, by simp⟩⟩
  | cons r rs ih =>
    intro b
    by_cases h : b.started_at < r.started_at
    · obtain ⟨c, hc, hcase⟩ := ih r
      refine ⟨c, ?_, ?_⟩
      · simpa [pickStep, h] using hc
      · rcases hcase with ⟨rfl, hall⟩ | ⟨hlt, l1, l2, hsplit, h1, h2⟩
        · exact Or.inr ⟨h, [], rs, by simp, by simp, hall⟩
        · refine Or.inr ⟨lt_trans h hlt, r :: l1, l2, by simp [hsplit], ?_, h2⟩
          intro x hx
          rcases List.mem_cons.mp hx with rfl | hx
          · exact hlt
          · exact h1 x hx
    · have hle : r.started_at ≤ b.started_at := le_of_not_lt h
      obtain ⟨c, hc, hcase⟩ := ih b
      refine ⟨c, ?_, ?_⟩
      · simpa [pickStep, h] using hc
      · rcases hcase with ⟨rfl, hall⟩ | ⟨hlt, l1, l2, hsplit, h1, h2⟩
        · refine Or.inl ⟨rfl, ?_⟩
          intro x hx
          rcases List.mem_cons.mp hx with rfl | hx
          · exact hle
          · exact hall x hx
        · refine Or.inr ⟨hlt, r :: l1, l2, by simp [hsplit], ?_, h2⟩
          intro x hx
          rcases List.mem_cons.mp hx with rfl | hx
          · exact lt_of_le_of_lt hle hlt
          · exact h1 x hx

/-- Characterization of the fold from an empty accumulator: the result
is the earliest-seen build among those with the maximal `started_at`. -/
lemma foldl_pickStep_none_char (l : List Build) (c : Build)
    (h : l.foldl pickStep none = some c) :
    ∃ l1 l2, l = l1 ++ c :: l2 ∧
      (∀ r ∈ l1, r.started_at < c.started_at) ∧
      (∀ r ∈ l2, r.started_at ≤ c.started_at) := by
  cases l with
  | nil => simp at h
  | cons r rs =>
    obtain ⟨d, hd, hcase⟩ := foldl_pickStep_char rs r
    have h2 : rs.foldl pickStep (some r) = some c := by
      simpa [pickStep] using h
    rw [h2] at hd
    have hdc : d = c := by
      injection hd with hdc
      exact hdc.symm
    subst hdc
    rcases hcase with ⟨rfl, hall⟩ | ⟨hlt, l1, l2, hsplit, h1, h2m⟩
    · exact ⟨[], rs, by simp, by simp, hall⟩
    · refine ⟨r :: l1, l2, by simp [hsplit], ?_, h2m⟩
      intro x hx
      rcases List.mem_cons.mp hx with rfl | hx
      · exact hlt
      · exact h1 x hx

/-- Claim C5: `last_status_by_pipeline` keeps, for each pipeline name,
the event with the greatest `started_at` among that pipeline's events;
on equal `started_at` the earlier-seen entry is kept (everything
before the chosen event in the filtered order started strictly
earlier, everything after started no later). -/
theorem c5_last_status_by_pipeline (rows : List Build) (p : String) (b : Build)
    (h : lastByPipeline rows p = some b) :
    b ∈ rows ∧ b.pipeline = p ∧
    (∀ r ∈ rows, r.pipeline = p → r.started_at ≤ b.started_at) ∧
    ∃ l1 l2, rows.filter (fun r => r.pipeline == p) = l1 ++ b :: l2 ∧
      (∀ r ∈ l1, r.started_at < b.started_at) ∧
      (∀ r ∈ l2, r.started_at ≤ b.started_at) := by
  have hf : (rows.filter (fun r => r.pipeline == p)).foldl pickStep none = some b := by
    have he := foldl_updater_eq rows (fun _ => none) p
    rw [lastByPipeline] at h
    rw [he] at h
    exact h
  obtain ⟨l1, l2, hsplit, h1, h2⟩ := foldl_pickStep_none_char _ b hf
  have hbmem : b ∈ rows.filter (fun r => r.pipeline == p) := by
    rw [hsplit]
    exact List.mem_append_right _ (List.mem_cons_self _ _)
  have hb2 := List.mem_filter.mp hbmem
  refine ⟨hb2.1, by simpa using hb2.2, ?_, l1, l2, hsplit, h1, h2⟩
  intro r hr hrp
  have hrf : r ∈ rows.filter (fun x => x.pipeline == p) :=
    List.mem_filter.mpr ⟨hr, by simp [hrp]⟩
  rw [hsplit] at hrf
  rcases List.mem_append.mp hrf with hl | hc
  · exact le_of_lt (h1 r hl)
  · rcases List.mem_cons.mp hc with rfl | hl2
    · exact le_refl _
    · exact h2 r hl2

/-- Claim C5, witness: with the same pipeline "A" at times 0 and 3600,
the kept entry is the 3600 event and its status "failure" is what the
per-pipeline map reports. -/
theorem c5_witness :
    eA2 ∈ rowsA ∧ eA2.pipeline = "A" ∧
    (∀ r ∈ rowsA, r.pipeline = "A" → r.started_at ≤ eA2.started_at) ∧
    (lastByPipeline rowsA "A").map Build.status = some "failure" :=
  ⟨(c5_last_status_by_pipeline rowsA "A" eA2 (by decide)).1,
   (c5_last_status_by_pipeline rowsA "A" eA2 (by decide)).2.1,
   (c5_last_status_by_pipeline rowsA "A" eA2 (by decide)).2.2.1,
   by decide⟩

/-
  Claim C6.
-/

/-- Removing an element distinct from the head commutes with `cons`. -/
lemma disconnect_cons_ne (a d : Nat) (l : List Nat) (h : d ≠ a) :
    disconnect (a :: l) d = a :: disconnect l d := by
  by_cases hm : d ∈ l
  · have hm2 : d ∈ a :: l := List.mem_cons_of_mem a hm
    simp only [disconnect, if_pos hm, if_pos hm2, pyRemove]
    rw [if_neg (fun hh => h hh.symm)]
  · have hm2 : d ∉ a :: l := by
      intro hh
      rcases List.mem_cons.mp hh with rfl | hh
      · exact h rfl
      · exact hm hh
    simp only [disconnect, if_neg hm, if_neg hm2]

/-- Dropping a batch of connections none of which is the head leaves
the head in place. -/
lemma foldl_disconnect_cons_not_mem :
    ∀ (ds : List Nat) (a : Nat) (l : List Nat), a ∉ ds →
      ds.foldl disconnect (a :: l) = a :: ds.foldl disconnect l := by
  intro ds
  induction ds with
  | nil => intro a l _; rfl
  | cons d ds ih =>
    intro a l h
    have hda : d ≠ a := fun hh => h (hh ▸ List.mem_cons_self d ds)
    have h2 : a ∉ ds := fun hh => h (List.mem_cons_of_mem d hh)
    simp only [List.foldl_cons, disconnect_cons_ne a d l hda]
    exact ih a (disconnect l d) h2

/-- Evicting exactly the failed connections from a duplicate-free
active list leaves exactly the non-failed ones, in order. -/
lemma foldl_disconnect_filter :
    ∀ (l : List Nat) (p : Nat → Bool), l.Nodup →
      (l.filter p).foldl disconnect l = l.filter (fun x => !(p x)) := by
  intro l
  induction l with
  | nil => intro p _; rfl
  | cons a as ih =>
    intro p hnd
    have ha : a ∉ as := (List.nodup_cons.mp hnd).1
    have hnd2 : as.Nodup := (List.nodup_cons.mp hnd).2
    by_cases hp : p a = true
    · have hfa : (a :: as).filter p = a :: as.filter p := by
        simp [List.filter_cons, hp]
      have hda : disconnect (a :: as) a = as := by
        simp [disconnect, pyRemove]
      have hfn : (a :: as).filter (fun x => !(p x)) = as.filter (fun x => !(p x)) := by
        simp [List.filter_cons, hp]
      rw [hfa, List.foldl_cons, hda, hfn]
      exact ih p hnd2
    · have hpf : p a = false := Bool.eq_false_iff.mpr hp
      have hfa : (a :: as).filter p = as.filter p := by
        simp [List.filter_cons, hpf]
      have hfn : (a :: as).filter (fun x => !(p x)) = a :: as.filter (fun x => !(p x)) := by
        simp [List.filter_cons, hpf]
      have hanm : a ∉ as.filter p := fun hh => ha (List.mem_filter.mp hh).1
      rw [hfa, hfn, foldl_disconnect_cons_not_mem (as.filter p) a as hanm]
      rw [ih p hnd2]

/-- Splitting a list by a predicate preserves its length. -/
lemma length_filter_split (l : List Nat) (p : Nat → Bool) :
    (l.filter (fun x => !(p x))).length + (l.filter p).length = l.length := by
  induction l with
  | nil => rfl
  | cons a as ih =>
    by_cases hp : p a = true
    · simp [List.filter_cons, hp]
      omega
    · have hpf : p a = false := Bool.eq_false_iff.mpr hp
      simp [List.filter_cons, hpf]
      omega

/-- Claim C6: when exactly the connections failing `fails` error on
send, every other connection still receives the message (delivery is
attempted independently and each failure is caught, so nothing
propagates to the caller), every failing connection is evicted from
the registry, and a subsequent broadcast reaches exactly the remaining
N - |K| connections. -/
theorem c6_broadcast_isolation (active : List Nat) (fails : Nat → Bool)
    (hnd : active.Nodup) :
    (broadcastStep fails active).1 = active.filter (fun ws => !(fails ws)) ∧
    (broadcastStep fails active).2 = active.filter (fun ws => !(fails ws)) ∧
    (∀ ws ∈ active, fails ws = true → ws ∉ (broadcastStep fails active).2) ∧
    (broadcastStep fails active).2.length + (active.filter (fun ws => fails ws)).length
      = active.length ∧
    (broadcastStep (fun _ => false) (broadcastStep fails active).2).1
      = (broadcastStep fails active).2 := by
  have h2 : (broadcastStep fails active).2 = active.filter (fun ws => !(fails ws)) :=
    foldl_disconnect_filter active fails hnd
  refine ⟨rfl, h2, ?_, ?_, ?_⟩
  · intro ws _ hf hmem
    rw [h2] at hmem
    have := (List.mem_filter.mp hmem).2
    simp [hf] at this
  · rw [h2]
    exact length_filter_split active fails
  · show ((broadcastStep fails active).2).filter (fun _ => !false) = _
    simp

/-- Claim C6, witness: broadcasting to registered connections 0, 1, 2
where only connection 1 fails: 0 and 2 receive the message, 1 is
evicted, and the next broadcast reaches exactly the remaining two. -/
theorem c6_witness :
    (broadcastStep (fun ws => ws == 1) [0, 1, 2]).1 = [0, 2] ∧
    (broadcastStep (fun ws => ws == 1) [0, 1, 2]).2 = [0, 2] ∧
    (broadcastStep (fun ws => ws == 1) [0, 1, 2]).2.length +
      ([0, 1, 2].filter (fun ws => ws == 1)).length = 3 ∧
    (broadcastStep (fun _ => false) (broadcastStep (fun ws => ws == 1) [0, 1, 2]).2).1
      = [0, 2] := by
  have h := c6_broadcast_isolation [0, 1, 2] (fun ws => ws == 1) (by decide)
  refine ⟨h.1.trans (by decide), h.2.1.trans (by decide), h.2.2.2.1, ?_⟩
  rw [h.2.2.2.2]
  exact h.2.1.trans (by decide)

/-
  Claim C9.
-/

/-- Claim C9, counterexample: registering the same connection twice
(`connect` appends unconditionally) leaves it twice in the registry,
and a single broadcast then delivers the message to it twice — not at
most once. -/
theorem c9_counterexample :
    applyOps [RegOp.reg 7, RegOp.reg 7] = [7, 7] ∧
    ((broadcastStep (fun _ => false) (applyOps [RegOp.reg 7, RegOp.reg 7])).1).count 7 = 2 ∧
    ¬ ((broadcastStep (fun _ => false) (applyOps [RegOp.reg 7, RegOp.reg 7])).1).count 7 ≤ 1 := by
  refine ⟨by decide, by decide, by decide⟩

/-- Claim C9, amended: in a single broadcast each connection receives
the message once per occurrence in the registry; delivery is at most
once provided the registry holds no duplicate registration of that
connection (which repeated `register` calls without an intervening
`unregister` violate). -/
theorem c9_at_most_once (active : List Nat) (fails : Nat → Bool) (c : Nat)
    (hnd : active.Nodup) :
    ((broadcastStep fails active).1).count c
      = (active.filter (fun ws => !(fails ws))).count c ∧
    ((broadcastStep fails active).1).count c ≤ 1 := by
  refine ⟨rfl, ?_⟩
  have hf : ((broadcastStep fails active).1).Nodup := hnd.filter _
  exact List.nodup_iff_count_le_one.mp hf c

/-- Claim C9, witness: the amended bound at a duplicate-free registry. -/
theorem c9_witness :
    ((broadcastStep (fun _ => false) [5, 9]).1).count 5 ≤ 1 :=
  (c9_at_most_once [5, 9] (fun _ => false) 5 (by decide)).2

/-
  Claim C7.
-/

/-- Claim C7: for every ingestion, the alert decision is true iff the
persisted status is `failure`; the alert collaborator is invoked with
(pipeline, repo, url or "", logs or "") exactly when it is true;
the trace contains exactly one decision outcome per persisted event
(one alert action when it fires, none otherwise); and the persist
action heads the trace, so no alert ever precedes persistence. -/
theorem c7_alert_once_after_persist (provider : String) (d : IngestRequest) :
    (shouldAlert (mkBuild provider d) = true ↔ (mkBuild provider d).status = "failure") ∧
    (ingestTrace provider d).countP isAlert
      = (if shouldAlert (mkBuild provider d) then 1 else 0) ∧
    (shouldAlert (mkBuild provider d) = true →
      Action.alertA (mkBuild provider d).pipeline (mkBuild provider d).repo
          ((mkBuild provider d).url.getD "") ((mkBuild provider d).logs.getD "")
        ∈ ingestTrace provider d) ∧
    (ingestTrace provider d).head? = some (Action.persistA (mkBuild provider d)) ∧
    (∀ t1 a t2, ingestTrace provider d = t1 ++ a :: t2 → isAlert a = true →
      Action.persistA (mkBuild provider d) ∈ t1) := by
  refine ⟨by simp [shouldAlert], ?_, ?_, ?_, ?_⟩
  · by_cases h : shouldAlert (mkBuild provider d) = true <;>
      simp [ingestTrace, h, isAlert, List.countP_cons]
  · intro h
    simp [ingestTrace, h]
  · by_cases h : shouldAlert (mkBuild provider d) = true <;>
      simp [ingestTrace, h]
  · intro t1 a t2 heq ha
    cases t1 with
    | nil =>
      simp only [ingestTrace, List.nil_append] at heq
      have : a = Action.persistA (mkBuild provider d) := by
        have := congrArg List.head? heq
        simpa using this.symm
      rw [this] at ha
      simp [isAlert] at ha
    | cons x t1 =>
      have : x = Action.persistA (mkBuild provider d) := by
        have := congrArg List.head? heq
        simpa [ingestTrace] using this.symm
      rw [this]
      exact List.mem_cons_self _ _

/-- Claim C7, witness: ingesting a concrete failing payload produces
exactly one alert invocation, carrying the record's pipeline, repo,
url and logs, and the trace starts with the persist action. -/
theorem c7_witness :
    (ingestTrace "github" reqFail).countP isAlert = 1 ∧
    Action.alertA "p" "org/repo" "" "boom" ∈ ingestTrace "github" reqFail ∧
    (ingestTrace "github" reqFail).head?
      = some (Action.persistA (mkBuild "github" reqFail)) := by
  have h := c7_alert_once_after_persist "github" reqFail
  refine ⟨h.2.1.trans (by decide), ?_, h.2.2.2.1⟩
  have hm := h.2.2.1 (by decide)
  simpa [mkBuild, reqFail] using hm

/-
  Claim C8.
-/

/-- Claim C8: a metrics query over a window with zero matching events
returns `success_rate = 0` and `failure_rate = 0` (not an error), and
`avg_build_time` is null whenever no windowed event has a non-null
duration. -/
theorem c8_empty_window (window : String) (now delta : Int) (rows : List Build)
    (hp : parseWindow window = some delta) (s : SummaryOut)
    (hs : metricsSummary window now rows = some s) :
    (selRows (now - delta) rows = [] →
      s.success_rate = 0 ∧ s.failure_rate = 0 ∧ s.avg_build_time = none) ∧
    ((selRows (now - delta) rows).filterMap (fun r => r.duration_seconds) = [] →
      s.avg_build_time = none) := by
  rw [metricsSummary, hp, Option.map_some'] at hs
  have hs2 := (Option.some.injEq _ _).mp hs
  constructor
  · intro hsel
    rw [← hs2]
    simp [successRate, failureRate, avgBuildTime, hsel]
  · intro hdur
    rw [← hs2]
    simp [avgBuildTime, hdur]

/-- Claim C8, witness: the empty event store yields rates `0` and a
null average build time, not an error. -/
theorem c8_witness :
    metricsSummary "7d" 0 [] = some emptySummary ∧
    emptySummary.success_rate = 0 ∧ emptySummary.failure_rate = 0 ∧
    emptySummary.avg_build_time = none := by
  have hm : metricsSummary "7d" 0 [] = some emptySummary := rfl
  have h := c8_empty_window "7d" 0 604800 [] (by decide) emptySummary hm
  exact ⟨hm, (h.1 rfl).1, (h.1 rfl).2.1, (h.1 rfl).2.2⟩

/-
  Claim C10.
-/

/-- A windowed event counts toward at most one of the two rates:
the success count plus the failure count never exceeds the total. -/
lemma countP_status_le (sel : List Build) :
    sel.countP (fun r => r.status == "success")
      + sel.countP (fun r => r.status == "failure") ≤ sel.length := by
  induction sel with
  | nil => simp
  | cons a l ih =>
    have hnot : ¬((a.status == "success") = true ∧ (a.status == "failure") = true) := by
      intro hb
      have e1 : a.status = "success" := by simpa using hb.1
      have e2 : a.status = "failure" := by simpa using hb.2
      rw [e1] at e2
      exact absurd e2 (by decide)
    cases hb1 : (a.status == "success") with
    | false =>
      cases hb2 : (a.status == "failure") with
      | false => (simp [List.countP_cons, hb1, hb2]; omega)
      | true => (simp [List.countP_cons, hb1, hb2]; omega)
    | true =>
      cases hb2 : (a.status == "failure") with
      | false => (simp [List.countP_cons, hb1, hb2]; omega)
      | true => exact absurd ⟨hb1, hb2⟩ hnot

/-- Rate bounds over any selection of builds. -/
lemma rate_bounds (sel : List Build) :
    0 ≤ successRate sel ∧ successRate sel ≤ 100 ∧
    0 ≤ failureRate sel ∧ failureRate sel ≤ 100 ∧
    successRate sel + failureRate sel ≤ 100 := by
  by_cases h : sel.length = 0
  · simp [successRate, failureRate, h]
  · have hpos : 0 < (sel.length : ℚ) := by
      exact_mod_cast Nat.pos_of_ne_zero h
    have hsc0 : (0 : ℚ) ≤ (sel.countP (fun r => r.status == "success") : ℚ) :=
      Nat.cast_nonneg _
    have hfc0 : (0 : ℚ) ≤ (sel.countP (fun r => r.status == "failure") : ℚ) :=
      Nat.cast_nonneg _
    have hsum : (sel.countP (fun r => r.status == "success") : ℚ)
        + (sel.countP (fun r => r.status == "failure") : ℚ) ≤ (sel.length : ℚ) := by
      exact_mod_cast countP_status_le sel
    have hsct : (sel.countP (fun r => r.status == "success") : ℚ) ≤ (sel.length : ℚ) :=
      le_trans (le_add_of_nonneg_right hfc0) hsum
    have hfct : (sel.countP (fun r => r.status == "failure") : ℚ) ≤ (sel.length : ℚ) :=
      le_trans (le_add_of_nonneg_left hsc0) hsum
    have hs : successRate sel
        = (sel.countP (fun r => r.status == "success") : ℚ) / (sel.length : ℚ) * 100 := by
      simp [successRate, h]
    have hf : failureRate sel
        = (sel.countP (fun r => r.status == "failure") : ℚ) / (sel.length : ℚ) * 100 := by
      simp [failureRate, h]
    have hb1 : (sel.countP (fun r => r.status == "success") : ℚ) / (sel.length : ℚ) ≤ 1 :=
      (div_le_one hpos).mpr hsct
    have hb2 : (sel.countP (fun r => r.status == "failure") : ℚ) / (sel.length : ℚ) ≤ 1 :=
      (div_le_one hpos).mpr hfct
    have hb0s : 0 ≤ (sel.countP (fun r => r.status == "success") : ℚ) / (sel.length : ℚ) :=
      div_nonneg hsc0 (le_of_lt hpos)
    have hb0f : 0 ≤ (sel.countP (fun r => r.status == "failure") : ℚ) / (sel.length : ℚ) :=
      div_nonneg hfc0 (le_of_lt hpos)
    refine ⟨?_, ?_, ?_, ?_, ?_⟩
    · rw [hs]; positivity
    · rw [hs]
      calc (sel.countP (fun r => r.status == "success") : ℚ) / (sel.length : ℚ) * 100
          ≤ 1 * 100 := by
            exact mul_le_mul_of_nonneg_right hb1 (by norm_num)
        _ = 100 := by norm_num
    · rw [hf]; positivity
    · rw [hf]
      calc (sel.countP (fun r => r.status == "failure") : ℚ) / (sel.length : ℚ) * 100
          ≤ 1 * 100 := by
            exact mul_le_mul_of_nonneg_right hb2 (by norm_num)
        _ = 100 := by norm_num
    · rw [hs, hf]
      have hsum2 : (sel.countP (fun r => r.status == "success") : ℚ) / (sel.length : ℚ)
          + (sel.countP (fun r => r.status == "failure") : ℚ) / (sel.length : ℚ) ≤ 1 := by
        rw [div_add_div_same]
        exact (div_le_one hpos).mpr hsum
      calc (sel.countP (fun r => r.status == "success") : ℚ) / (sel.length : ℚ) * 100
            + (sel.countP (fun r => r.status == "failure") : ℚ) / (sel.length : ℚ) * 100
          = ((sel.countP (fun r => r.status == "success") : ℚ) / (sel.length : ℚ)
            + (sel.countP (fun r => r.status == "failure") : ℚ) / (sel.length : ℚ)) * 100 := by
            ring
        _ ≤ 1 * 100 := mul_le_mul_of_nonneg_right hsum2 (by norm_num)
        _ = 100 := by norm_num

/-- Claim C10: every summary the metrics endpoint returns has
`success_rate` and `failure_rate` in [0, 100], with their sum at most
100, because each windowed event counts toward at most one rate. -/
theorem c10_rates_bounded (window : String) (now : Int) (rows : List Build)
    (s : SummaryOut) (hs : metricsSummary window now rows = some s) :
    0 ≤ s.success_rate ∧ s.success_rate ≤ 100 ∧
    0 ≤ s.failure_rate ∧ s.failure_rate ≤ 100 ∧
    s.success_rate + s.failure_rate ≤ 100 := by
  rw [metricsSummary] at hs
  obtain ⟨delta, _, hmap⟩ := Option.map_eq_some'.mp hs
  rw [← hmap]
  exact rate_bounds (selRows (now - delta) rows)

/-- Claim C10, witness: the summary over two events (one success, one
failure) has both rates in range and their sum within 100. -/
theorem c10_witness :
    0 ≤ summaryA.success_rate ∧ summaryA.success_rate ≤ 100 ∧
    0 ≤ summaryA.failure_rate ∧ summaryA.failure_rate ≤ 100 ∧
    summaryA.success_rate + summaryA.failure_rate ≤ 100 :=
  c10_rates_bounded "7d" 3600 rowsA summaryA rfl

end CICD
